import Mathlib

/-!
Verification development for `visualization.py` (sorting-animation replay tool).

The file shallowly embeds the two cores of the program:
* the log parser inside `plot_sorting_animation_from_json` (reading JSONL
  lines, filtering keys by algorithm tag, parsing step indices, stable
  sorting, and the append-a-sorted-final-frame policy), and
* the playback state machine (the nonlocal flags `step_index`, `running`,
  `paused`, `finished`, the frame generator, and the `start` /
  `pause_resume` / `reset` button callbacks together with the timer tick).

JSON decoding (`json.loads`) and the matplotlib/Tk plumbing are external
collaborators: a decoded line is represented directly as its key/value
list, and a line that fails to decode is represented by a `malformed`
constructor carrying its raw text.  Numeric array entries are modelled as
integers.
-/

namespace Visualization

/-- Does the first character list occur at the head of the second?
Models the first position of Python substring search. -/
def startsSeg : List Char → List Char → Bool
  | [], _ => true
  | _ :: _, [] => false
  | a :: as, b :: bs => a == b && startsSeg as bs

/-- Contiguous-substring test on character lists, modelling Python's
`tag in key` membership test for strings. -/
def containsSeg (needle : List Char) : List Char → Bool
  | [] => needle.isEmpty
  | b :: bs => startsSeg needle (b :: bs) || containsSeg needle bs

/-- Characters of the segment of `key` before the first `_`, modelling
`key.split('_')[0]` (the whole key when no underscore occurs). -/
def stepSeg (key : String) : List Char :=
  key.data.takeWhile (fun c => c != '_')

/-- Digit-string accumulator for `pyInt`: consumes decimal digits,
failing on any non-digit character. -/
def decDigitsAux : Nat → List Char → Option Nat
  | acc, [] => some acc
  | acc, c :: cs =>
    if c.isDigit then decDigitsAux (acc * 10 + (c.toNat - 48)) cs else none

/-- A non-empty run of decimal digits, as a natural number. -/
def parseNatStr : List Char → Option Nat
  | [] => none
  | cs => decDigitsAux 0 cs

/-- Strip leading and trailing whitespace, as Python's `int` does before
reading the number. -/
def pyStrip (cs : List Char) : List Char :=
  ((cs.dropWhile Char.isWhitespace).reverse.dropWhile Char.isWhitespace).reverse

/-- Models Python's `int(step_str)` on the strings produced by
`key.split('_')[0]`: optional surrounding whitespace, an optional single
sign, then at least one decimal digit.  (Digit-group underscores cannot
occur here because the argument never contains `_`; non-ASCII digit forms
are out of scope.)  `none` models the `ValueError` branch. -/
def pyInt (cs : List Char) : Option Int :=
  match pyStrip cs with
  | '-' :: rest => (parseNatStr rest).map (fun n => -(n : Int))
  | '+' :: rest => (parseNatStr rest).map (fun n => (n : Int))
  | rest => (parseNatStr rest).map (fun n => (n : Int))

/-- Python's `str.lower()` on the ASCII strings this program handles:
lower-case each character. -/
def pyLower (s : String) : String :=
  ⟨s.data.map Char.toLower⟩

/-- The fixed lexicon `algo_map` of the source: full algorithm names
(lower case) paired with their short key tags. -/
def algo_map : List (String × String) :=
  [("bubble sort", "bubble"),
   ("merge sort", "merge"),
   ("quick sort", "quick"),
   ("radix sort", "radix"),
   ("linear search algorithm", "linear")]

/-- The supported full algorithm names (the keys of `algo_map`). -/
def supported_names : List String := algo_map.map (fun p => p.1)

/-- `algo_map.get(algo_name.lower(), None)`: case-insensitive lookup of
the algorithm tag.  All tags are non-empty strings, so Python's
`if not sorttype` test is exactly the `none` case. -/
def lookupTag (algo_name : String) : Option String :=
  (algo_map.find? (fun p => p.1 == pyLower algo_name)).map (fun p => p.2)

/-- One line of the JSONL log, after the external `json.loads` step: either
a decoded object (its key/value pairs) or a line whose decode raised. -/
inductive LogLine where
  | obj (entries : List (String × List Int))
  | malformed (raw : String)
deriving DecidableEq, Repr

/-- The failure conditions of the load: unknown algorithm name, a line
that is not valid JSON (carrying its position and raw text), or an empty
filtered result. -/
inductive ParseError where
  | unsupportedAlgorithm (algo_name : String)
  | malformedLog (lineIdx : Nat) (raw : String)
  | noStepsFound (algo_name : String)
deriving DecidableEq, Repr

/-- The inner `for key, value in data.items()` loop: keys whose lower-cased
form contains the tag are candidate steps; a candidate whose leading
segment fails `int` is skipped with a warning, the rest pair the parsed
step index with the array. -/
def collectEntries (tag : String) : List (String × List Int) → List (Int × List Int)
  | [] => []
  | (key, value) :: rest =>
    if containsSeg tag.data (pyLower key).data then
      match pyInt (stepSeg key) with
      | some step => (step, value) :: collectEntries tag rest
      | none => collectEntries tag rest
    else
      collectEntries tag rest

/-- The line-reading loop: each line is decoded and its entries collected;
the first line whose decode fails aborts the whole read with
`malformedLog` (the source's single `try` block around the loop). -/
def readLines (tag : String) : Nat → List LogLine → Except ParseError (List (Int × List Int))
  | _, [] => .ok []
  | i, .malformed raw :: _ => .error (.malformedLog i raw)
  | i, .obj entries :: rest =>
    match readLines tag (i + 1) rest with
    | .error e => .error e
    | .ok tailSteps => .ok (collectEntries tag entries ++ tailSteps)

/-- `states.sort(key=lambda x: x[0])`: Python's list sort is a stable
ascending sort, modelled by insertion sort on the step index. -/
def sortByStep (l : List (Int × List Int)) : List (Int × List Int) :=
  List.insertionSort (fun a b => a.1 ≤ b.1) l

/-- Python's `sorted` on an integer list (ascending). -/
def pySorted (l : List Int) : List Int :=
  List.insertionSort (fun a b => a ≤ b) l

/-- The visual-completion step: if the list is non-empty and its last
frame differs from its sorted copy, append the sorted copy. -/
def ensureSortedFinal (states : List (List Int)) : List (List Int) :=
  match states.getLast? with
  | none => states
  | some lastA =>
    if lastA = pySorted lastA then states else states ++ [pySorted lastA]

/-- Lines 61-66 of the source: stable-sort the collected steps by step
index, keep only the arrays, and apply the visual-completion step. -/
def framesOf (steps : List (Int × List Int)) : List (List Int) :=
  ensureSortedFinal ((sortByStep steps).map (fun st => st.2))

/-- The log-parsing pipeline of `plot_sorting_animation_from_json`
(lines 31-73 of the source): resolve the algorithm tag, read and filter
the lines, stable-sort by step index, keep the arrays, ensure a sorted
final frame, and fail when no steps were found. -/
def plot_sorting_animation_from_json (logLines : List LogLine) (algo_name : String) :
    Except ParseError (List (List Int)) :=
  match lookupTag algo_name with
  | none => .error (.unsupportedAlgorithm algo_name)
  | some tag =>
    match readLines tag 0 logLines with
    | .error e => .error e
    | .ok steps =>
      if (framesOf steps).isEmpty then .error (.noStepsFound algo_name)
      else .ok (framesOf steps)

end Visualization

namespace Visualization

/-- The nonlocal animation state of the source (lines 91-98) together with
the collaborating matplotlib objects it drives:
`bars` is the renderer's displayed bar heights, `animPaused` whether the
active `FuncAnimation` timer is paused, `genInstalled` whether the real
`state_generator` (rather than `dummy_generator`) feeds the animation,
`genStarted` whether that generator has yielded at least once (so that the
`step_index += 1` after its `yield` is pending), `genDead` whether it is
exhausted (the animation stopped), and `delivered` the ghost trace of
frames handed to the renderer. -/
structure AnimState where
  step_index : Nat
  running : Bool
  paused : Bool
  finished : Bool
  current_arr : List Int
  bars : List Int
  animPaused : Bool
  genInstalled : Bool
  genStarted : Bool
  genDead : Bool
  pauseLabel : String
  delivered : List (List Int)
deriving DecidableEq, Repr

/-- The state right after setup (lines 91-127): index 0, not running,
paused, dummy generator installed, animation created then paused. -/
def initState (states : List (List Int)) : AnimState :=
  { step_index := 0, running := false, paused := true, finished := false,
    current_arr := states.getD 0 [], bars := states.getD 0 [],
    animPaused := true, genInstalled := false, genStarted := false,
    genDead := false, pauseLabel := "Resume", delivered := [] }

/-- The `update` callback (lines 111-117): when `running and not paused`,
record the frame as current and push its heights to the bars. -/
def update (fr : List Int) (s : AnimState) : AnimState :=
  if s.running && !s.paused then
    { s with current_arr := fr, bars := fr, delivered := s.delivered ++ [fr] }
  else s

/-- The index `state_generator` reads on its next resumption: the
`step_index += 1` after the `yield` at line 106 runs at the start of the
next pull, so the index advances only once the generator has yielded. -/
def nextIndex (s : AnimState) : Nat :=
  if s.genStarted then s.step_index + 1 else s.step_index

/-- One timer tick of the active `FuncAnimation`: nothing happens while
the animation is paused or already stopped.  Otherwise the next frame is
pulled from the installed generator and passed to `update`.  With the
real `state_generator` (lines 101-108) a resumption first performs the
`step_index += 1` pending from the previous `yield`; if the index is
still within `states` the frame is yielded, else the loop exits, sets
`finished`, and the exhausted generator stops the animation
(`repeat=False`).  With `dummy_generator` (lines 119-122) the current
array is yielded forever. -/
def tick (states : List (List Int)) (s : AnimState) : AnimState :=
  if s.animPaused || s.genDead then s
  else if s.genInstalled then
    if h : nextIndex s < states.length then
      update (states.get ⟨nextIndex s, h⟩)
        { s with step_index := nextIndex s, genStarted := true }
    else
      { s with step_index := nextIndex s, finished := true, genDead := true }
  else
    update s.current_arr s

/-- The `start` callback (lines 130-149): if not running, begin a fresh
run from index 0 with a new `state_generator` and a resumed animation;
else if paused and not finished, resume; otherwise do nothing. -/
def start (s : AnimState) : AnimState :=
  if !s.running then
    { s with step_index := 0, finished := false, genInstalled := true,
             genStarted := false, genDead := false, animPaused := false,
             running := true, paused := false, pauseLabel := "Pause" }
  else if s.paused && !s.finished then
    { s with animPaused := false, paused := false, pauseLabel := "Pause" }
  else s

/-- The `pause_resume` callback (lines 152-168): a diagnostic no-op when
not running or finished; otherwise toggle between paused and running. -/
def pause_resume (s : AnimState) : AnimState :=
  if !s.running || s.finished then s
  else if s.paused then
    { s with animPaused := false, paused := false, pauseLabel := "Pause" }
  else
    { s with animPaused := true, paused := true, pauseLabel := "Resume" }

/-- The `reset` callback (lines 171-191): restore the bars to
`original_arr` (`states[0]`), zero the index, clear all flags, stop the
old timer and install a freshly paused dummy animation. -/
def reset (states : List (List Int)) (s : AnimState) : AnimState :=
  { s with current_arr := states.getD 0 [], bars := states.getD 0 [],
           step_index := 0, running := false, paused := true,
           finished := false, genInstalled := false, genStarted := false,
           genDead := false, animPaused := true, pauseLabel := "Resume" }

/-- The four events that drive the playback state machine: the three
button callbacks and the timer tick. -/
inductive Event where
  | startClick
  | pauseClick
  | resetClick
  | timerTick
deriving DecidableEq, Repr

/-- Dispatch one event to its handler. -/
def stepEvent (states : List (List Int)) : Event → AnimState → AnimState
  | .startClick => start
  | .pauseClick => pause_resume
  | .resetClick => reset states
  | .timerTick => tick states

/-- The states a playback session can reach from setup under any
interleaving of button clicks and timer ticks. -/
inductive Reachable (states : List (List Int)) : AnimState → Prop where
  | init : Reachable states (initState states)
  | step : ∀ (s : AnimState) (e : Event),
      Reachable states s → Reachable states (stepEvent states e s)

end Visualization

namespace Visualization

/-- The head of a non-empty list is its `getD 0` default read. -/
lemma getD_zero_eq_head (l : List (List Int)) (h : l ≠ []) :
    l.getD 0 [] = l.head h := by
  cases l with
  | nil => exact absurd rfl h
  | cons a t => rfl

/-- C3: parsing the two log lines `{"00_bubble_t1":[3,1,2]}` and
`{"01_bubble_t2":[1,3,2]}` for algorithm name "Bubble Sort" produces
exactly the Frame Sequence `[[3,1,2],[1,3,2],[1,2,3]]`, the third frame
being the sorted copy appended because `[1,3,2]` is not sorted. -/
theorem bubble_example_parse :
    plot_sorting_animation_from_json
      [LogLine.obj [("00_bubble_t1", [3, 1, 2])], LogLine.obj [("01_bubble_t2", [1, 3, 2])]]
      "Bubble Sort" = .ok [[3, 1, 2], [1, 3, 2], [1, 2, 3]] := by
  rfl

/-- C5: from every prior playback state, `reset` zeroes the index, clears
`running`/`finished`, sets `paused`, and restores both the tracked array
and the rendered bars to the original first frame. -/
theorem reset_restores_initial (states : List (List Int)) (s : AnimState)
    (h : states ≠ []) :
    (reset states s).step_index = 0 ∧
    (reset states s).running = false ∧
    (reset states s).paused = true ∧
    (reset states s).finished = false ∧
    (reset states s).current_arr = states.head h ∧
    (reset states s).bars = states.head h := by
  refine ⟨rfl, rfl, rfl, rfl, ?_, ?_⟩ <;>
    simpa [reset] using getD_zero_eq_head states h

/-- Witness for `reset_restores_initial` at the concrete session
`[[7,3],[3,7]]` and its setup state. -/
theorem reset_restores_initial_witness :
    (reset [[7, 3], [3, 7]] (initState [[7, 3], [3, 7]])).step_index = 0 ∧
    (reset [[7, 3], [3, 7]] (initState [[7, 3], [3, 7]])).running = false ∧
    (reset [[7, 3], [3, 7]] (initState [[7, 3], [3, 7]])).paused = true ∧
    (reset [[7, 3], [3, 7]] (initState [[7, 3], [3, 7]])).finished = false ∧
    (reset [[7, 3], [3, 7]] (initState [[7, 3], [3, 7]])).current_arr =
      ([[7, 3], [3, 7]] : List (List Int)).head (by decide) ∧
    (reset [[7, 3], [3, 7]] (initState [[7, 3], [3, 7]])).bars =
      ([[7, 3], [3, 7]] : List (List Int)).head (by decide) :=
  reset_restores_initial [[7, 3], [3, 7]] (initState [[7, 3], [3, 7]]) (by decide)


/-- C8: within one decoded object, a candidate key (one whose lower-cased
form contains the tag) whose leading segment fails integer parsing is
skipped — processing continues with the remaining entries unchanged —
while a candidate whose leading segment parses (including negative
values) is retained, paired with that integer step index. -/
theorem invalid_step_key_skipped (tag key : String) (value : List Int)
    (rest : List (String × List Int))
    (hcand : containsSeg tag.data (pyLower key).data = true) :
    (pyInt (stepSeg key) = none →
      collectEntries tag ((key, value) :: rest) = collectEntries tag rest) ∧
    (∀ n : Int, pyInt (stepSeg key) = some n →
      collectEntries tag ((key, value) :: rest) =
        (n, value) :: collectEntries tag rest) := by
  constructor
  · intro hbad
    simp [collectEntries, hcand, hbad]
  · intro n hok
    simp [collectEntries, hcand, hok]

/-- Witness for `invalid_step_key_skipped`: the key `"x_bubble_t1"` is
dropped and the key `"-1_bubble_t1"` is retained with step index `-1`. -/
theorem invalid_step_key_skipped_witness :
    (collectEntries "bubble" [("x_bubble_t1", [1]), ("-1_bubble_t1", [2])] =
      collectEntries "bubble" [("-1_bubble_t1", [2])]) ∧
    (collectEntries "bubble" [("-1_bubble_t1", [2])] =
      (-1, [2]) :: collectEntries "bubble" []) :=
  ⟨(invalid_step_key_skipped "bubble" "x_bubble_t1" [1] [("-1_bubble_t1", [2])]
      (by decide)).1 (by decide),
   (invalid_step_key_skipped "bubble" "-1_bubble_t1" [2] []
      (by decide)).2 (-1) (by decide)⟩

/-- The result of `pySorted` is sorted ascending. -/
lemma sorted_pySorted (l : List Int) : (pySorted l).Sorted (fun a b => a ≤ b) :=
  List.sorted_insertionSort _ l

/-- An integer list equals its `pySorted` copy exactly when it is already
sorted ascending (the test the source performs on `states[-1]`). -/
lemma pySorted_eq_self_iff (l : List Int) :
    l = pySorted l ↔ l.Sorted (fun a b => a ≤ b) := by
  constructor
  · intro h
    rw [h]
    exact sorted_pySorted l
  · intro h
    exact (List.Sorted.insertionSort_eq h).symm

/-- Unfolding of the visual-completion step on a list with a known last
frame. -/
lemma ensureSortedFinal_eq (X : List (List Int)) (l : List Int)
    (h : X.getLast? = some l) :
    ensureSortedFinal X = if l = pySorted l then X else X ++ [pySorted l] := by
  unfold ensureSortedFinal
  rw [h]

/-- When non-empty, the output of `ensureSortedFinal` ends in a sorted
frame. -/
lemma ensureSortedFinal_last_sorted (X : List (List Int))
    (h : ensureSortedFinal X ≠ []) :
    ((ensureSortedFinal X).getLastD []).Sorted (fun a b => a ≤ b) := by
  cases hX : X.getLast? with
  | none =>
    have hnil : X = [] := by
      cases X with
      | nil => rfl
      | cons a t => simp at hX
    rw [hnil] at h
    exact absurd rfl h
  | some l =>
    rw [ensureSortedFinal_eq X l hX]
    by_cases hs : l = pySorted l
    · rw [if_pos hs, List.getLastD_eq_getLast?, hX, Option.getD_some]
      rw [hs]
      exact sorted_pySorted l
    · rw [if_neg hs, List.getLastD_eq_getLast?, List.getLast?_concat,
        Option.getD_some]
      exact sorted_pySorted l

/-- The two conditional clauses of the visual-completion step. -/
lemma ensureSortedFinal_cases (sts : List (List Int)) (l : List Int)
    (h : sts.getLast? = some l) :
    (l.Sorted (fun a b => a ≤ b) → ensureSortedFinal sts = sts) ∧
    (¬ l.Sorted (fun a b => a ≤ b) →
      ensureSortedFinal sts = sts ++ [pySorted l]) := by
  rw [ensureSortedFinal_eq sts l h]
  constructor
  · intro hs
    rw [if_pos ((pySorted_eq_self_iff l).mpr hs)]
  · intro hs
    rw [if_neg (fun he => hs ((pySorted_eq_self_iff l).mp he))]

/-- C1: every frame sequence the log parser returns is non-empty and ends
in an ascending-sorted frame; moreover the final completion step appends
the sorted copy of the last extracted frame exactly when that frame is
not already sorted, and returns the sequence unchanged otherwise. -/
theorem last_frame_sorted :
    (∀ (logLines : List LogLine) (algo_name : String) (sts : List (List Int)),
        plot_sorting_animation_from_json logLines algo_name = .ok sts →
        sts ≠ [] ∧ (sts.getLastD []).Sorted (fun a b => a ≤ b)) ∧
    (∀ (sts : List (List Int)) (l : List Int), sts.getLast? = some l →
        (l.Sorted (fun a b => a ≤ b) → ensureSortedFinal sts = sts) ∧
        (¬ l.Sorted (fun a b => a ≤ b) →
          ensureSortedFinal sts = sts ++ [pySorted l])) := by
  constructor
  · intro logLines algo_name sts hok
    unfold plot_sorting_animation_from_json at hok
    split at hok
    · exact absurd hok (by simp)
    · split at hok
      · exact absurd hok (by simp)
      · split at hok
        · exact absurd hok (by simp)
        · rename_i steps hread hemp
          cases hok
          have hne : framesOf steps ≠ [] := by
            intro hnil
            rw [hnil] at hemp
            exact hemp rfl
          exact ⟨hne, ensureSortedFinal_last_sorted _ hne⟩
  · exact ensureSortedFinal_cases

/-- Witness for `last_frame_sorted` on the two-line bubble-sort log. -/
theorem last_frame_sorted_witness :
    (([[3, 1, 2], [1, 3, 2], [1, 2, 3]] : List (List Int)) ≠ [] ∧
      (([[3, 1, 2], [1, 3, 2], [1, 2, 3]] : List (List Int)).getLastD
        []).Sorted (fun a b => a ≤ b)) ∧
    ensureSortedFinal [[1, 2], [2, 3]] = [[1, 2], [2, 3]] :=
  ⟨last_frame_sorted.1
      [LogLine.obj [("00_bubble_t1", [3, 1, 2])], LogLine.obj [("01_bubble_t2", [1, 3, 2])]]
      "Bubble Sort" [[3, 1, 2], [1, 3, 2], [1, 2, 3]] (by rfl),
   (last_frame_sorted.2 [[1, 2], [2, 3]] [2, 3] (by rfl)).1 (by decide)⟩

instance : IsTotal (Int × List Int) (fun a b => a.1 ≤ b.1) :=
  ⟨fun a b => le_total a.1 b.1⟩

instance : IsTrans (Int × List Int) (fun a b => a.1 ≤ b.1) :=
  ⟨fun _ _ _ h1 h2 => le_trans h1 h2⟩

/-- Inserting a pair into a list keeps, among the entries with any fixed
step index `k`, the inserted pair in front exactly when its own index is
`k`: an inserted element never passes an element of equal index. -/
lemma filter_orderedInsert (k : Int) (a : Int × List Int) :
    ∀ l : List (Int × List Int),
      (List.orderedInsert (fun x y => x.1 ≤ y.1) a l).filter
          (fun st => st.1 == k) =
        if a.1 == k then a :: l.filter (fun st => st.1 == k)
        else l.filter (fun st => st.1 == k)
  | [] => by
    cases hak : (a.1 == k) <;> simp [List.orderedInsert, List.filter, hak]
  | b :: bs => by
    simp only [List.orderedInsert]
    by_cases hab : a.1 ≤ b.1
    · rw [if_pos hab, List.filter_cons]
    · rw [if_neg hab, List.filter_cons, filter_orderedInsert k a bs]
      by_cases hbk : b.1 = k <;> by_cases hak : a.1 = k
      · exact absurd (le_of_eq (by rw [hak, hbk])) hab
      · simp [hak, hbk, List.filter_cons]
      · simp [hak, hbk, List.filter_cons]
      · simp [hak, hbk, List.filter_cons]

/-- The stable sort preserves, for every step index `k`, the subsequence
of entries carrying index `k` in their original encounter order. -/
lemma filter_sortByStep (k : Int) :
    ∀ l : List (Int × List Int),
      (sortByStep l).filter (fun st => st.1 == k) =
        l.filter (fun st => st.1 == k)
  | [] => rfl
  | a :: t => by
    have ih := filter_sortByStep k t
    simp only [sortByStep, List.insertionSort] at ih ⊢
    rw [filter_orderedInsert, ih, List.filter_cons]

/-- C2: the candidate list produced at line 62 of the source is sorted by
step index ascending, and for every step index the entries carrying it
(in particular duplicates) keep their original encounter order. -/
theorem sortByStep_sorted_stable (l : List (Int × List Int)) :
    List.Sorted (fun a b : Int × List Int => a.1 ≤ b.1) (sortByStep l) ∧
    ∀ k : Int,
      (sortByStep l).filter (fun st => st.1 == k) =
        l.filter (fun st => st.1 == k) :=
  ⟨List.sorted_insertionSort _ l, fun k => filter_sortByStep k l⟩

/-- Reading a block of well-decoded lines followed by a malformed line
aborts with the position and content of that malformed line. -/
lemma readLines_append_malformed (tag raw : String) (rest : List LogLine) :
    ∀ (front : List LogLine) (i : Nat),
      (∀ l ∈ front, ∃ entries, l = LogLine.obj entries) →
      readLines tag i (front ++ LogLine.malformed raw :: rest) =
        .error (.malformedLog (i + front.length) raw)
  | [], i, _ => by simp [readLines]
  | a :: t, i, h => by
    obtain ⟨entries, rfl⟩ := h a (by simp)
    have ih := readLines_append_malformed tag raw rest t (i + 1)
      (fun l hl => h l (by simp [hl]))
    show readLines tag i
      (LogLine.obj entries :: (t ++ LogLine.malformed raw :: rest)) = _
    rw [readLines, ih]
    simp only [List.length_cons]
    congr 1
    congr 1
    omega

/-- C7: a log whose lines decode correctly up to some line that is not
valid JSON makes the whole load abort with `malformedLog`, carrying that
line's position and raw content; no frame sequence is produced and the
remaining lines are never consulted. -/
theorem malformed_line_aborts (front rest : List LogLine)
    (raw algo_name tag : String)
    (htag : lookupTag algo_name = some tag)
    (hfront : ∀ l ∈ front, ∃ entries, l = LogLine.obj entries) :
    plot_sorting_animation_from_json (front ++ LogLine.malformed raw :: rest)
      algo_name = .error (.malformedLog front.length raw) := by
  simp only [plot_sorting_animation_from_json, htag,
    readLines_append_malformed tag raw rest front 0 hfront, Nat.zero_add]

/-- Witness for `malformed_line_aborts`: one valid line, then the
undecodable line `"oops"`, then a further line that is never reached. -/
theorem malformed_line_aborts_witness :
    plot_sorting_animation_from_json
      ([LogLine.obj [("00_bubble_t1", [1])]] ++
        LogLine.malformed "oops" :: [LogLine.obj [("01_bubble_t2", [2])]])
      "Bubble Sort" = .error (.malformedLog 1 "oops") :=
  malformed_line_aborts [LogLine.obj [("00_bubble_t1", [1])]]
    [LogLine.obj [("01_bubble_t2", [2])]] "oops" "Bubble Sort" "bubble"
    (by rfl)
    (by
      intro l hl
      rw [List.mem_singleton] at hl
      exact ⟨_, hl⟩)

/-- C6: an algorithm name whose lower-cased form is not one of the five
lexicon entries resolves to no tag, and the parse fails with
`unsupportedAlgorithm` before any line is read — no frame sequence is
produced. -/
theorem unknown_algorithm_rejected (algo_name : String)
    (logLines : List LogLine)
    (h : pyLower algo_name ∉
      ["bubble sort", "merge sort", "quick sort", "radix sort",
       "linear search algorithm"]) :
    lookupTag algo_name = none ∧
    plot_sorting_animation_from_json logLines algo_name =
      .error (.unsupportedAlgorithm algo_name) := by
  have hfind : algo_map.find? (fun p => p.1 == pyLower algo_name) = none := by
    rw [List.find?_eq_none]
    intro p hp hbeq
    rw [beq_iff_eq] at hbeq
    apply h
    rw [← hbeq]
    simp only [algo_map, List.mem_cons, List.not_mem_nil, or_false] at hp
    rcases hp with rfl | rfl | rfl | rfl | rfl <;> decide
  have hlook : lookupTag algo_name = none := by
    rw [lookupTag, hfind, Option.map_none']
  refine ⟨hlook, ?_⟩
  unfold plot_sorting_animation_from_json
  rw [hlook]

/-- Witness for `unknown_algorithm_rejected` with the name "Heap Sort". -/
theorem unknown_algorithm_rejected_witness :
    lookupTag "Heap Sort" = none ∧
    plot_sorting_animation_from_json [LogLine.obj [("00_heap_t1", [2, 1])]]
      "Heap Sort" = .error (.unsupportedAlgorithm "Heap Sort") :=
  unknown_algorithm_rejected "Heap Sort" [LogLine.obj [("00_heap_t1", [2, 1])]]
    (by decide)

/-- `update` never changes the step index. -/
lemma update_step_index (fr : List Int) (s : AnimState) :
    (update fr s).step_index = s.step_index := by
  unfold update
  split <;> rfl

/-- `update` never changes the running flag. -/
lemma update_running (fr : List Int) (s : AnimState) :
    (update fr s).running = s.running := by
  unfold update
  split <;> rfl

/-- The generator's resumption index never moves backwards. -/
lemma le_nextIndex (s : AnimState) : s.step_index ≤ nextIndex s := by
  unfold nextIndex
  split
  · exact Nat.le_succ _
  · exact Nat.le_refl _

/-- A tick never changes the running flag: only `start` and `reset`
write it. -/
lemma tick_running (states : List (List Int)) (s : AnimState) :
    (tick states s).running = s.running := by
  unfold tick
  split
  · rfl
  · split
    · split
      · rw [update_running]
      · rfl
    · rw [update_running]

/-- A tick never decreases the step index. -/
lemma tick_step_index_le (states : List (List Int)) (s : AnimState) :
    s.step_index ≤ (tick states s).step_index := by
  unfold tick
  split
  · exact Nat.le_refl _
  · split
    · split
      · rw [update_step_index]
        exact le_nextIndex s
      · exact le_nextIndex s
    · rw [update_step_index]

/-- A tick of a paused animation is a no-op (the timer is stopped). -/
lemma tick_fix_animPaused (states : List (List Int)) (s : AnimState)
    (h : s.animPaused = true) : tick states s = s := by
  unfold tick
  rw [h]
  simp

/-- A tick of a stopped (exhausted) animation is a no-op. -/
lemma tick_fix_genDead (states : List (List Int)) (s : AnimState)
    (h : s.genDead = true) : tick states s = s := by
  unfold tick
  rw [h]
  simp

/-- Inductive invariant of the playback machine: whenever `running` is
false (before the first start, or after a reset) the step index is 0 and
the active animation is paused. -/
lemma reachable_inv (states : List (List Int)) (s : AnimState)
    (h : Reachable states s) :
    s.running = false → s.step_index = 0 ∧ s.animPaused = true := by
  induction h with
  | init => intro _; exact ⟨rfl, rfl⟩
  | step s' e hr ih =>
    intro hrun
    cases e with
    | startClick =>
      cases h1 : s'.running
      · exact absurd hrun (by simp [stepEvent, start, h1])
      · cases hp : s'.paused <;> cases hf : s'.finished <;>
          simp [stepEvent, start, h1, hp, hf] at hrun
    | pauseClick =>
      cases h1 : s'.running
      · have heq : pause_resume s' = s' := by simp [pause_resume, h1]
        rw [show stepEvent states Event.pauseClick s' = pause_resume s' from rfl,
          heq] at hrun ⊢
        exact ih hrun
      · cases hp : s'.paused <;> cases hf : s'.finished <;>
          simp [stepEvent, pause_resume, h1, hp, hf] at hrun
    | resetClick => exact ⟨rfl, rfl⟩
    | timerTick =>
      rw [show stepEvent states Event.timerTick s' = tick states s' from rfl]
        at hrun ⊢
      have hr0 : s'.running = false := by
        rw [← tick_running states s']
        exact hrun
      obtain ⟨hidx, hpau⟩ := ih hr0
      rw [tick_fix_animPaused states s' hpau]
      exact ⟨hidx, hpau⟩

/-- C9: over every reachable state, the non-reset events (`start`,
`pause_resume`, timer tick) never move `step_index` backwards — in
particular never back to 0 from a later position — while the reset
event always sets it to 0. -/
theorem step_index_monotone (states : List (List Int)) (s : AnimState)
    (e : Event) (hr : Reachable states s) (he : e ≠ Event.resetClick) :
    s.step_index ≤ (stepEvent states e s).step_index ∧
    (stepEvent states Event.resetClick s).step_index = 0 := by
  refine ⟨?_, rfl⟩
  cases e with
  | startClick =>
    show s.step_index ≤ (start s).step_index
    cases h1 : s.running
    · rw [(reachable_inv states s hr h1).1]
      exact Nat.zero_le _
    · cases hp : s.paused <;> cases hf : s.finished <;>
        simp [start, h1, hp, hf]
  | pauseClick =>
    show s.step_index ≤ (pause_resume s).step_index
    cases h1 : s.running <;> cases hp : s.paused <;> cases hf : s.finished <;>
      simp [pause_resume, h1, hp, hf]
  | resetClick => exact absurd rfl he
  | timerTick => exact tick_step_index_le states s

/-- Witness for `step_index_monotone` at the setup state of a concrete
session, under a timer tick. -/
theorem step_index_monotone_witness :
    (initState [[4, 2]]).step_index ≤
      (stepEvent [[4, 2]] Event.timerTick (initState [[4, 2]])).step_index ∧
    (stepEvent [[4, 2]] Event.resetClick (initState [[4, 2]])).step_index = 0 :=
  step_index_monotone [[4, 2]] (initState [[4, 2]]) Event.timerTick
    Reachable.init (by decide)

/-- Taking one more element of a list splits off its element at `n`. -/
lemma take_succ_get (states : List (List Int)) (n : Nat)
    (hn : n < states.length) :
    states.take (n + 1) = states.take n ++ [states.get ⟨n, hn⟩] := by
  rw [List.take_succ, List.getElem?_eq_getElem hn]
  rfl

/-- `start` from a non-running state, unfolded. -/
lemma start_of_not_running (s : AnimState) (h : s.running = false) :
    start s =
      { s with step_index := 0, finished := false, genInstalled := true,
               genStarted := false, genDead := false, animPaused := false,
               running := true, paused := false, pauseLabel := "Pause" } := by
  simp [start, h]

/-- Shape of the machine after the `(k+1)`-st effective tick of a fresh
run: the frame at position `k` has just been delivered, the index trails
at `k`, and the delivery trace holds the first `k+1` frames. -/
lemma run_mid (states : List (List Int)) (s0 : AnimState)
    (h0 : s0.running = false) :
    ∀ (k : Nat) (hk : k < states.length),
      (tick states)^[k + 1] (start s0) =
        { step_index := k, running := true, paused := false,
          finished := false, current_arr := states.get ⟨k, hk⟩,
          bars := states.get ⟨k, hk⟩, animPaused := false,
          genInstalled := true, genStarted := true, genDead := false,
          pauseLabel := "Pause",
          delivered := s0.delivered ++ states.take (k + 1) } := by
  intro k
  induction k with
  | zero =>
    intro hk
    rw [Function.iterate_one, start_of_not_running s0 h0]
    rw [take_succ_get states 0 hk, List.take_zero, List.nil_append]
    simp [tick, update, nextIndex, hk]
  | succ k ihk =>
    intro hk
    have hk' : k < states.length := Nat.lt_of_succ_lt hk
    rw [Function.iterate_succ_apply', ihk hk']
    rw [take_succ_get states (k + 1) hk]
    simp [tick, update, nextIndex, hk]

/-- The state at the end of a fresh run (`length + 1` ticks after a
start from a non-running state): the whole sequence has been delivered,
`finished` is set, the generator is exhausted, and `running` is still
true — the tick handler never clears it. -/
lemma run_final_state (states : List (List Int)) (s0 : AnimState)
    (h0 : s0.running = false) :
    ((tick states)^[states.length + 1] (start s0)).running = true ∧
    ((tick states)^[states.length + 1] (start s0)).finished = true ∧
    ((tick states)^[states.length + 1] (start s0)).genDead = true ∧
    ((tick states)^[states.length + 1] (start s0)).delivered =
      s0.delivered ++ states := by
  rcases states with _ | ⟨a, rest⟩
  · rw [List.length_nil, Function.iterate_one, start_of_not_running s0 h0]
    refine ⟨?_, ?_, ?_, ?_⟩ <;> simp [tick, update, nextIndex]
  · have hk : rest.length < (a :: rest).length := by
      rw [List.length_cons]
      exact Nat.lt_succ_self _
    rw [List.length_cons, Function.iterate_succ_apply',
      run_mid (a :: rest) s0 h0 rest.length hk]
    have hnext : ¬ rest.length + 1 < (a :: rest).length := by
      rw [List.length_cons]
      exact Nat.lt_irrefl _
    have htake : (a :: rest).take (rest.length + 1) = a :: rest := by
      rw [show rest.length + 1 = (a :: rest).length from rfl, List.take_length]
    refine ⟨?_, ?_, ?_, ?_⟩ <;>
      simp [tick, update, nextIndex, hnext, htake]

/-- `start` does nothing on a state that is still running and finished:
the fresh-run branch needs `running` false and the resume branch needs
`finished` false. -/
lemma start_fix_of_finished (s : AnimState) (hrun : s.running = true)
    (hfin : s.finished = true) : start s = s := by
  simp [start, hrun, hfin]

/-- C4 (corrected): starting a fresh run and letting the timer fire
`length + 1` times delivers every frame of the sequence exactly once, in
order, after which `finished` is true, `running` is still true (the tick
handler never clears it), and a further tick is a no-op — no further
frame is delivered. -/
theorem run_delivers_all_frames (states : List (List Int)) (s0 : AnimState)
    (h0 : s0.running = false) :
    ((tick states)^[states.length + 1] (start s0)).delivered =
      s0.delivered ++ states ∧
    ((tick states)^[states.length + 1] (start s0)).finished = true ∧
    ((tick states)^[states.length + 1] (start s0)).running = true ∧
    tick states ((tick states)^[states.length + 1] (start s0)) =
      (tick states)^[states.length + 1] (start s0) := by
  obtain ⟨hrun, hfin, hdead, hdel⟩ := run_final_state states s0 h0
  exact ⟨hdel, hfin, hrun, tick_fix_genDead _ _ hdead⟩

/-- Witness for `run_delivers_all_frames` on the one-frame session
`[[5]]` started from its setup state. -/
theorem run_delivers_all_frames_witness :
    ((tick [[5]])^[([[5]] : List (List Int)).length + 1]
        (start (initState [[5]]))).delivered =
      (initState [[5]]).delivered ++ [[5]] ∧
    ((tick [[5]])^[([[5]] : List (List Int)).length + 1]
        (start (initState [[5]]))).finished = true ∧
    ((tick [[5]])^[([[5]] : List (List Int)).length + 1]
        (start (initState [[5]]))).running = true ∧
    tick [[5]] ((tick [[5]])^[([[5]] : List (List Int)).length + 1]
        (start (initState [[5]]))) =
      (tick [[5]])^[([[5]] : List (List Int)).length + 1]
        (start (initState [[5]])) :=
  run_delivers_all_frames [[5]] (initState [[5]]) rfl

/-- C4 as stated is refuted: after the final tick of a finished run the
spec expects `running = false`, but the machine keeps `running = true`
(only `finished` is set by the generator's epilogue). -/
theorem tick_finish_running_counterexample :
    ((tick [[2, 1]])^[2] (start (initState [[2, 1]]))).finished = true ∧
    ((tick [[2, 1]])^[2] (start (initState [[2, 1]]))).running ≠ false := by
  decide

/-- C10: once a log-replay run has finished, the `running` flag remains
true (with `finished` set), so a further `start` click changes nothing —
neither the fresh-run branch nor the resume branch fires — and a fresh
run from index 0 is obtained only through `reset` followed by `start`. -/
theorem start_noop_after_finish (states : List (List Int)) (s0 : AnimState)
    (h0 : s0.running = false) :
    ((tick states)^[states.length + 1] (start s0)).running = true ∧
    ((tick states)^[states.length + 1] (start s0)).finished = true ∧
    start ((tick states)^[states.length + 1] (start s0)) =
      (tick states)^[states.length + 1] (start s0) ∧
    (start (reset states
      ((tick states)^[states.length + 1] (start s0)))).step_index = 0 ∧
    (start (reset states
      ((tick states)^[states.length + 1] (start s0)))).running = true ∧
    (start (reset states
      ((tick states)^[states.length + 1] (start s0)))).genInstalled = true := by
  obtain ⟨hrun, hfin, _, _⟩ := run_final_state states s0 h0
  exact ⟨hrun, hfin, start_fix_of_finished _ hrun hfin, rfl, rfl, rfl⟩

/-- Witness for `start_noop_after_finish` on the one-frame session
`[[9]]` run to completion from its setup state. -/
theorem start_noop_after_finish_witness :
    ((tick [[9]])^[([[9]] : List (List Int)).length + 1]
        (start (initState [[9]]))).running = true ∧
    ((tick [[9]])^[([[9]] : List (List Int)).length + 1]
        (start (initState [[9]]))).finished = true ∧
    start ((tick [[9]])^[([[9]] : List (List Int)).length + 1]
        (start (initState [[9]]))) =
      (tick [[9]])^[([[9]] : List (List Int)).length + 1]
        (start (initState [[9]])) ∧
    (start (reset [[9]] ((tick [[9]])^[([[9]] : List (List Int)).length + 1]
        (start (initState [[9]]))))).step_index = 0 ∧
    (start (reset [[9]] ((tick [[9]])^[([[9]] : List (List Int)).length + 1]
        (start (initState [[9]]))))).running = true ∧
    (start (reset [[9]] ((tick [[9]])^[([[9]] : List (List Int)).length + 1]
        (start (initState [[9]]))))).genInstalled = true :=
  start_noop_after_finish [[9]] (initState [[9]]) rfl

end Visualization
